import Mathlib

/-!
Shallow embedding of the client-side logic of the cirec_rag front end:
the single-shot query client (src/frontend/static/js/app.js), the
chat-style query client (the unnamed chat script), and the admin
document-management client (src/frontend/static/js/admin.js).

Pure helper functions are translated directly.  Event-driven code is
modelled as explicit state transitions and event traces, with network
responses passed in as parameters.  Numeric computations that the source
performs on JS doubles are modelled with exact integer arithmetic; for
every input relevant to the claims the double computation is exact (all
intermediate values are dyadic rationals with short mantissas), so the
model agrees with the source bit for bit there.
-/

namespace CirecRag

/-! ## Shared string machinery -/

/-- Embeds the body of escapeHtml (chat client, lines 322-327): assigning
textContent and reading back innerHTML HTML-escapes the ampersand,
less-than and greater-than characters (and serialises U+00A0 as the
nbsp entity); every other character is passed through unchanged. -/
def escapeChar (c : Char) : String :=
  if c = '&' then "&amp;"
  else if c = '<' then "&lt;"
  else if c = '>' then "&gt;"
  else if c = '\u00A0' then "&nbsp;"
  else String.singleton c

/-- Character-list form of escapeHtml. -/
def escChars : List Char → List Char
  | [] => []
  | c :: rest => (escapeChar c).data ++ escChars rest

/-- Embeds escapeHtml (chat client, lines 322-327).  The falsy guard
(if (!text) return two quotes) is the identity on the empty string, so
the function is total char-wise escaping. -/
def escapeHtml (text : String) : String :=
  ⟨escChars text.data⟩

/-- Decoder for the four entities escapeHtml can emit; this is the
spec-side inverse used to state the round-trip identity (the spec says
"once unescaped").  Any other text is passed through unchanged. -/
def unescapeChars : List Char → List Char
  | [] => []
  | c :: rest =>
    if c = '&' ∧ rest.take 4 = ['a', 'm', 'p', ';'] then '&' :: unescapeChars (rest.drop 4)
    else if c = '&' ∧ rest.take 3 = ['l', 't', ';'] then '<' :: unescapeChars (rest.drop 3)
    else if c = '&' ∧ rest.take 3 = ['g', 't', ';'] then '>' :: unescapeChars (rest.drop 3)
    else if c = '&' ∧ rest.take 5 = ['n', 'b', 's', 'p', ';'] then '\u00A0' :: unescapeChars (rest.drop 5)
    else c :: unescapeChars rest
termination_by l => l.length
decreasing_by
  all_goals simp [List.length_drop]
  all_goals omega

/-- String form of the entity decoder. -/
def unescapeHtml (s : String) : String :=
  ⟨unescapeChars s.data⟩

/-- Character-level matcher: does the second list start with the first? -/
def matchesAt : List Char → List Char → Bool
  | [], _ => true
  | _ :: _, [] => false
  | p :: ps, c :: cs => p == c && matchesAt ps cs

/-- Does the character list contain the pattern as a contiguous run? -/
def charsContain (pat : List Char) : List Char → Bool
  | [] => pat.isEmpty
  | c :: rest => matchesAt pat (c :: rest) || charsContain pat rest

/-- Embeds the JS String.prototype.includes test used by admin.js. -/
def jsIncludes (s pat : String) : Bool :=
  charsContain pat.data s.data

/-- Embeds JS String.prototype.toUpperCase char-wise (the rendered
strings here are ASCII, where the simple mapping agrees with JS). -/
def jsToUpperCase (s : String) : String :=
  ⟨s.data.map Char.toUpper⟩

/-- Embeds JS String.prototype.substring(1): drop the first character. -/
def jsSubstring1 (s : String) : String :=
  ⟨s.data.drop 1⟩

/-! ## Query clients: source icons -/

/-- Value of a JS object-literal property access as getSourceIcon can
observe it: a string own property, a truthy member inherited from
Object.prototype (a built-in function, or for the proto accessor the
Object.prototype object itself), or undefined. -/
inductive JsValue where
  | str (s : String)
  | protoMember (name : String)
  | undef
deriving DecidableEq, Repr

/-- Property names every object literal inherits from Object.prototype
(including the Annex B accessors present in web browsers): an access
with one of these keys on the icons literal finds the inherited member,
not undefined. -/
def objectProtoKeys : List String :=
  ["constructor", "hasOwnProperty", "isPrototypeOf", "propertyIsEnumerable",
   "toLocaleString", "toString", "valueOf", "__proto__",
   "__defineGetter__", "__defineSetter__", "__lookupGetter__", "__lookupSetter__"]

/-- Embeds the JS truthiness test the or-else applies to the lookup:
undefined and the empty string are falsy; non-empty strings and
inherited functions and objects are truthy. -/
def jsTruthy : JsValue → Bool
  | JsValue.str s => s != ""
  | JsValue.protoMember _ => true
  | JsValue.undef => false

/-- Embeds the property access on the icons object literal of
getSourceIcon (the same literal appears in app.js lines 126-130 and in
the chat client lines 308-312): the three own properties shadow the
prototype; any other key falls through the prototype chain, finding the
inherited Object.prototype member for its property names and undefined
for everything else. -/
def iconsLookup (type : String) : JsValue :=
  if type = "pdf" then JsValue.str "📕"
  else if type = "word" then JsValue.str "📄"
  else if type = "excel" then JsValue.str "📊"
  else if type ∈ objectProtoKeys then JsValue.protoMember type
  else JsValue.undef

/-- Embeds getSourceIcon (app.js lines 125-132): the object-literal
lookup followed by the or-else fallback to the word icon.  For a key
inherited from Object.prototype the lookup is truthy, so the fallback is
skipped and the inherited member itself is returned. -/
def getSourceIcon (type : String) : JsValue :=
  if jsTruthy (iconsLookup type) then iconsLookup type else JsValue.str "📄"

/-- Embeds getSourceIcon of the chat client (lines 307-314), textually
identical to the app.js version, object literal included. -/
def chatGetSourceIcon (type : String) : JsValue :=
  if jsTruthy (iconsLookup type) then iconsLookup type else JsValue.str "📄"

/-- Template-literal stringification of the value interpolated as the
icon: strings pass through, undefined prints as undefined, an inherited
built-in function prints in the native-code form, and the proto accessor
yields the Object.prototype object, which prints as object Object. -/
def jsValueToString : JsValue → String
  | JsValue.str s => s
  | JsValue.protoMember name =>
      if name = "__proto__" then "[object Object]"
      else "function " ++ name ++ "() \x7b [native code] \x7d"
  | JsValue.undef => "undefined"

/-! ## Admin client: badge mapping and file-size formatting -/

/-- Embeds getBadgeClass (admin.js lines 205-210): exact equality tests on
the extension string with badge-pdf as the final fallback. -/
def getBadgeClass (type : String) : String :=
  if type = ".pdf" then "badge-pdf"
  else if type = ".docx" ∨ type = ".doc" then "badge-word"
  else if type = ".xlsx" ∨ type = ".xls" then "badge-excel"
  else "badge-pdf"

/-- Embeds JS Math.round applied to the nonnegative quotient num / den
(den positive): round half toward positive infinity, that is
Int.floor (num / den + 1 / 2), computed on integers as
(2 * num + den) / (2 * den).  The agreement with the floor form is the
theorem jsRoundDiv_eq_floor below. -/
def jsRoundDiv (num den : ℕ) : ℕ :=
  (2 * num + den) / (2 * den)

/-- Renders the JS number m / 100 the way JS number-to-string prints it
for these magnitudes: integer part, then up to two fractional digits with
trailing zeros trimmed. -/
def renderHundredths (m : ℕ) : String :=
  if m % 100 = 0 then toString (m / 100)
  else if m % 10 = 0 then toString (m / 100) ++ "." ++ toString (m / 10 % 10)
  else toString (m / 100) ++ "." ++
    (if m % 100 < 10 then "0" ++ toString (m % 100) else toString (m % 100))

/-- Fuel-driven floor logarithm base 1024; the fuel only bounds the
recursion depth, so with fuel at least n the value is the usual
Nat.log 1024 n (theorem log1024_eq_natLog below). -/
def log1024Aux : ℕ → ℕ → ℕ
  | 0, _ => 0
  | fuel + 1, n => if n < 1024 then 0 else 1 + log1024Aux fuel (n / 1024)

/-- Embeds Math.floor(Math.log(bytes) / Math.log(1024)) for positive
inputs: the exact floor logarithm base 1024, in a form the kernel can
evaluate. -/
def log1024 (n : ℕ) : ℕ :=
  log1024Aux n n

/-- Unit array of formatFileSize (admin.js line 215). -/
def sizesArray : List String := ["Bytes", "KB", "MB", "GB"]

/-- Embeds formatFileSize (admin.js lines 212-218) over exact arithmetic.
The unit index Math.floor(Math.log(bytes) / Math.log 1024) is the exact
base-1024 logarithm log1024; Math.round(bytes / Math.pow(1024, i)
* 100) is jsRoundDiv (100 * n) (1024 ^ i), and the division by 100 plus
number-to-string conversion is renderHundredths (for every natural input
below 2 ^ 53 the JS double pipeline computes these exactly: the
quotient of dyadic rationals stays dyadic with a mantissa under 53 bits);
sizes indexed out of range is the JS
undefined value, which string concatenation prints as "undefined"; a
negative argument makes Math.log return NaN, which propagates through
floor, division, round, and indexing, yielding the string "NaN undefined"
(this branch is the partial evaluation of that NaN propagation). -/
def formatFileSize (bytes : ℤ) : String :=
  if bytes = 0 then "0 Bytes"
  else if bytes < 0 then "NaN undefined"
  else
    let n : ℕ := bytes.toNat
    let i : ℕ := log1024 n
    let m : ℕ := jsRoundDiv (100 * n) (1024 ^ i)
    renderHundredths m ++ " " ++ ((sizesArray.get? i).getD "undefined")

/-! ## Query clients: submit guard -/

/-- Embeds JS String.prototype.trim: strip whitespace from both ends
(JS strips WhiteSpace and LineTerminator code points; the claims only
involve blanks, tabs and newlines, all covered by Char.isWhitespace). -/
def jsTrim (s : String) : String :=
  ⟨((s.data.dropWhile Char.isWhitespace).reverse.dropWhile Char.isWhitespace).reverse⟩

/-- Request body of the query call: JSON with question and top_k. -/
structure QueryRec where
  question : String
  top_k : ℕ
deriving DecidableEq, Repr

/-- Observable outcome of a submit handler, truncated at the fetch
suspension point: the request issued (if any), the alert dialogs raised,
and whether the handler transitioned the UI out of Idle into its pending
presentation (submit control disabled, loading affordance shown). -/
structure SubmitOutcome where
  request : Option QueryRec
  alerts : List String
  enteredPending : Bool
deriving DecidableEq, Repr

/-- Embeds submitQuery (app.js lines 32-78) up to the fetch suspension
point: trim the input; an empty result raises an alert and returns before
any state change or network call; otherwise the button is disabled
(pending) and one POST body with top_k 10 is built. -/
def submitQuery (input : String) : SubmitOutcome :=
  let question := jsTrim input
  if question = "" then
    { request := none, alerts := ["Please enter a question"], enteredPending := false }
  else
    { request := some { question := question, top_k := 10 },
      alerts := [], enteredPending := true }

/-- Embeds sendMessage (chat client, lines 102-180) up to the fetch
suspension point: trim the input; an empty result is ignored with only a
console.log (no user-visible dialog) and no state change; otherwise the
input is cleared, controls disabled (pending) and one POST body with
top_k 10 is built. -/
def sendMessage (input : String) : SubmitOutcome :=
  let question := jsTrim input
  if question = "" then
    { request := none, alerts := [], enteredPending := false }
  else
    { request := some { question := question, top_k := 10 },
      alerts := [], enteredPending := true }

/-! ## Single-shot client: source rendering -/

/-- Source record of a query response. -/
structure Source where
  type : String
  filename : String
  content : Option String
deriving DecidableEq, Repr

/-- Embeds createSourceElement (app.js lines 104-123): the innerHTML
template with getSourceIcon, the upper-cased type, the filename and the
optional content interpolated.  Filename and content are interpolated
verbatim, with no escaping.  JS renders nothing for a falsy content, so
the none and empty-string cases both yield the empty fragment.  Layout
whitespace between tags is elided; the index parameter is unused by the
template, as in the source. -/
def createSourceElement (source : Source) : String :=
  "<div class=\"source-icon\">" ++ jsValueToString (getSourceIcon source.type) ++ "</div>"
  ++ "<div class=\"source-info\"><div>"
  ++ "<span class=\"source-type\">" ++ jsToUpperCase source.type ++ "</span>"
  ++ "<span class=\"source-filename\">" ++ source.filename ++ "</span>"
  ++ "</div>"
  ++ (match source.content with
      | some c => if c = "" then "" else "<div class=\"source-content\">" ++ c ++ "</div>"
      | none => "")
  ++ "</div>"

/-! ## Admin client: page-load guard -/

/-- Externally observable admin actions: navigations and network calls. -/
inductive AdminEvent where
  | navigate (path : String)
  | fetchDocuments (authHeader : String)
deriving DecidableEq, Repr

/-- Embeds the Authorization template literal (admin.js line 13): with no
stored token, localStorage.getItem returns null and the template literal
stringifies it, giving the header value Bearer null. -/
def bearerHeader (token : Option String) : String :=
  "Bearer " ++ token.getD "null"

/-- Predicate picking out document-list requests in an admin trace. -/
def isFetchDocuments : AdminEvent → Bool
  | AdminEvent.fetchDocuments _ => true
  | _ => false

/-- Embeds the top level of admin.js as the trace of navigations and
network calls it emits on page load: lines 6-9 read the stored token and,
when it is absent, assign the login path to window.location.href; that
assignment queues a navigation but does not halt the running script, so
line 311 still calls loadDocuments, which issues the GET documents
request (line 122) with the Bearer header built on line 13. -/
def adminPageLoad (stored : Option String) : List AdminEvent :=
  (if stored = none then [AdminEvent.navigate "/login"] else [])
  ++ [AdminEvent.fetchDocuments (bearerHeader stored)]

/-! ## Admin client: document listing -/

/-- Document record returned by the listing endpoint. -/
structure Document where
  filename : String
  type : String
  size : ℤ
  upload_date : String
  indexed : Bool
deriving DecidableEq, Repr

/-- Models new Date(s).toLocaleString() as the identity: the output is
locale and timezone dependent and outside the embedding; no claim
depends on the rendered date text. -/
def jsToLocaleString (s : String) : String := s

/-- Embeds createDocumentRow (admin.js lines 176-203): the cell markup of
one table row, with layout whitespace between tags elided. -/
def createDocumentRow (doc : Document) : String :=
  "<td><strong>" ++ doc.filename ++ "</strong></td>"
  ++ "<td><span class=\"file-type-badge " ++ getBadgeClass doc.type ++ "\">"
  ++ jsToUpperCase (jsSubstring1 doc.type) ++ "</span></td>"
  ++ "<td>" ++ formatFileSize doc.size ++ "</td>"
  ++ "<td>" ++ jsToLocaleString doc.upload_date ++ "</td>"
  ++ "<td>" ++ (if doc.indexed then "✅ Indexed" else "⏳ Pending") ++ "</td>"
  ++ "<td><button class=\"btn btn-danger btn-sm delete-btn\" data-filename=\""
  ++ doc.filename ++ "\">🗑️ Delete</button></td>"

/-- Placeholder rendered for an empty listing (admin.js line 146). -/
def noDocumentsHtml : String :=
  "<p style=\"color: var(--text-secondary); padding: 2rem; text-align: center;\">No documents uploaded yet</p>"

/-- Embeds displayDocuments (admin.js lines 144-174): empty input renders
the placeholder, otherwise a table whose body holds one row per document. -/
def displayDocuments (docs : List Document) : String :=
  if docs.length = 0 then noDocumentsHtml
  else
    "<table><thead><tr><th>Filename</th><th>Type</th><th>Size</th><th>Upload Date</th><th>Status</th><th>Actions</th></tr></thead><tbody>"
    ++ String.join (docs.map (fun d => "<tr>" ++ createDocumentRow d ++ "</tr>"))
    ++ "</tbody></table>"

/-- UI-relevant admin state for the listing flow: the stored token, the
pending navigation target (none while no navigation was requested) and
the markup of the documents table container. -/
structure AdminUiState where
  token : Option String
  location : Option String
  tableHtml : String
deriving DecidableEq, Repr

/-- Outcome of one fetch as seen by the caller: an HTTP response with a
status and a parsed body, or a thrown network error with its message. -/
inductive FetchOutcome where
  | response (status : ℕ) (body : List Document)
  | networkError (message : String)
deriving DecidableEq, Repr

/-- Embeds response.ok: the status is in the 2xx range. -/
def responseOk (status : ℕ) : Bool :=
  decide (200 ≤ status ∧ status < 300)

/-- Inline failure markup written by the catch branch (admin.js line 135). -/
def failedLoadHtml : String :=
  "<p style=\"color: var(--danger-color); padding: 2rem; text-align: center;\">Failed to load documents</p>"

/-- Error message thrown for a non-ok listing response (admin.js line 127);
it is a constant and in particular never mentions the numeric status. -/
def loadFailureMessage : String := "Failed to load documents"

/-- Embeds the catch branch of loadDocuments (admin.js lines 133-141):
render the inline failure markup, then clear the token and navigate to
login only when the caught error message contains the substring 401. -/
def loadDocumentsCatch (st : AdminUiState) (message : String) : AdminUiState :=
  let st1 : AdminUiState := { st with tableHtml := failedLoadHtml }
  if jsIncludes message "401" then { st1 with token := none, location := some "/login" }
  else st1

/-- Embeds loadDocuments (admin.js lines 118-142) as a state transformer
over the fetch outcome.  A non-ok response throws the constant
loadFailureMessage; a network failure throws with the message of the
underlying exception.  The transient loading markup written on entry is
overwritten before the function settles and is not modelled. -/
def loadDocuments (st : AdminUiState) (outcome : FetchOutcome) : AdminUiState :=
  match outcome with
  | FetchOutcome.response status body =>
      if responseOk status then { st with tableHtml := displayDocuments body }
      else loadDocumentsCatch st loadFailureMessage
  | FetchOutcome.networkError message => loadDocumentsCatch st message

/-! ## Admin client: sequential upload loop -/

/-- Events emitted by the upload loop, in program order: a request is the
fetch to the upload endpoint starting, a settle is that fetch (and its
body read) resolving or rejecting, a banner is a transient status
message, and refresh is the final loadDocuments call. -/
inductive UploadEvent where
  | request (filename : String)
  | settled (filename : String) (success : Bool)
  | banner (message : String) (kind : String)
  | refresh
deriving DecidableEq, Repr

/-- Predicate picking out request events. -/
def isRequest : UploadEvent → Bool
  | UploadEvent.request _ => true
  | _ => false

/-- Filename carried by a request event, if the event is one. -/
def requestName : UploadEvent → Option String
  | UploadEvent.request f => some f
  | _ => none

/-- Predicate picking out settle events. -/
def isSettled : UploadEvent → Bool
  | UploadEvent.settled _ _ => true
  | _ => false

/-- Predicate picking out the listing refresh. -/
def isRefresh : UploadEvent → Bool
  | UploadEvent.refresh => true
  | _ => false

/-- Events of one iteration of the upload loop (admin.js lines 75-89):
uploadFile issues the request and is awaited until it settles; a
successful settle shows the success banner, a rejection is caught and
shows the failure banner without leaving the loop. -/
def uploadOne (file : String × Bool) : List UploadEvent :=
  [UploadEvent.request file.1, UploadEvent.settled file.1 file.2,
   if file.2 then UploadEvent.banner (file.1 ++ " uploaded successfully") "success"
   else UploadEvent.banner ("Failed to upload " ++ file.1) "error"]

/-- Embeds uploadFiles (admin.js lines 72-97) as its event trace: the
loop body runs once per file in order, each iteration awaiting its own
fetch, and after the loop the listing is refreshed exactly once.  Each
file is paired with the success of its request. -/
def uploadFiles (files : List (String × Bool)) : List UploadEvent :=
  files.flatMap uploadOne ++ [UploadEvent.refresh]

/-- One-in-flight checker: walks a trace with a flag saying whether a
request is currently outstanding; a request is admissible only while none
is outstanding, and a settle only while one is. -/
def atMostOneInFlight : Bool → List UploadEvent → Bool
  | _, [] => true
  | inflight, UploadEvent.request _ :: rest => !inflight && atMostOneInFlight true rest
  | inflight, UploadEvent.settled _ _ :: rest => inflight && atMostOneInFlight false rest
  | inflight, _ :: rest => atMostOneInFlight inflight rest

/-! ## Admin client: delete confirmation state machine -/

/-- User-driven actions on the delete flow: a click on a delete button in
row for the named file (showDeleteModal), a click on the cancel button,
and a click on the confirm button whose issued DELETE settles with the
given success. -/
inductive DeleteAction where
  | showModal (filename : String)
  | cancel
  | confirm (success : Bool)
deriving DecidableEq, Repr

/-- Externally observable events of the delete flow. -/
inductive DeleteEvent where
  | deleteRequest (filename : String)
  | banner (message : String) (kind : String)
  | refreshList
deriving DecidableEq, Repr

/-- Mutable state of the delete flow: the fileToDelete variable
(admin.js line 33) and the modal visibility. -/
structure DeleteUiState where
  fileToDelete : Option String
  modalVisible : Bool
deriving DecidableEq, Repr

/-- State before any action: no target, modal hidden. -/
def initialDeleteState : DeleteUiState :=
  { fileToDelete := none, modalVisible := false }

/-- Embeds the three delete handlers (admin.js lines 221-255):
showDeleteModal records the target and opens the modal; cancel hides the
modal and clears the target; confirm returns at once when no target is
recorded, and otherwise issues the DELETE for the recorded target — on
success it shows the success banner, closes the modal, clears the target
and refreshes the listing, while on failure it shows the error banner
and, as in the source catch branch, leaves the modal, the target and the
document list untouched. -/
def deleteStep (st : DeleteUiState) : DeleteAction → DeleteUiState × List DeleteEvent
  | DeleteAction.showModal f =>
      ({ fileToDelete := some f, modalVisible := true }, [])
  | DeleteAction.cancel =>
      ({ fileToDelete := none, modalVisible := false }, [])
  | DeleteAction.confirm success =>
      match st.fileToDelete with
      | none => (st, [])
      | some f =>
          if success then
            ({ fileToDelete := none, modalVisible := false },
             [DeleteEvent.deleteRequest f,
              DeleteEvent.banner (f ++ " deleted successfully") "success",
              DeleteEvent.refreshList])
          else
            (st, [DeleteEvent.deleteRequest f,
                  DeleteEvent.banner "Failed to delete document" "error"])

/-- Runs a sequence of delete-flow actions from a state, accumulating the
emitted events in order. -/
def runDelete (st : DeleteUiState) : List DeleteAction → DeleteUiState × List DeleteEvent
  | [] => (st, [])
  | a :: rest =>
      let step := deleteStep st a
      let tail := runDelete step.1 rest
      (tail.1, step.2 ++ tail.2)


/-! # Theorems -/

/-! ## Helper lemmas -/

/-- Links the integer rounding used in the embedding to the
floor-of-quotient-plus-half form of JS Math.round. -/
theorem jsRoundDiv_eq_floor (num den : ℕ) (h : 0 < den) :
    jsRoundDiv num den = ⌊((num : ℚ) / (den : ℚ) + 1 / 2)⌋₊ := by
  have hd : (den : ℚ) ≠ 0 := Nat.cast_ne_zero.mpr h.ne'
  have hq : ((num : ℚ) / (den : ℚ) + 1 / 2)
      = ((2 * num + den : ℕ) : ℚ) / ((2 * den : ℕ) : ℚ) := by
    push_cast
    field_simp
    ring
  rw [hq, Nat.floor_div_eq_div]
  rfl

/-- With enough fuel, the fuel-driven logarithm is Nat.log. -/
theorem log1024Aux_eq (fuel : ℕ) : ∀ n : ℕ, n ≤ fuel → log1024Aux fuel n = Nat.log 1024 n := by
  induction fuel with
  | zero =>
    intro n hn
    interval_cases n
    simp [log1024Aux]
  | succ fuel ih =>
    intro n hn
    by_cases h : n < 1024
    · simp [log1024Aux, h, Nat.log_of_lt h]
    · have hle : 1024 ≤ n := not_lt.mp h
      have hdiv : n / 1024 ≤ fuel := by
        have : n / 1024 < n := Nat.div_lt_self (by omega) (by norm_num)
        omega
      rw [log1024Aux, if_neg h, ih _ hdiv,
        Nat.log_of_one_lt_of_le (by norm_num) hle]
      omega

/-- The computable floor logarithm agrees with Nat.log. -/
theorem log1024_eq_natLog (n : ℕ) : log1024 n = Nat.log 1024 n :=
  log1024Aux_eq n n le_rfl

/-- Decoder step on a head character that is not an ampersand. -/
theorem unescapeChars_cons_ne (c : Char) (l : List Char) (h : c ≠ '&') :
    unescapeChars (c :: l) = c :: unescapeChars l := by
  rw [unescapeChars]
  simp [h]

/-- Round trip on character lists: decoding an escaped list restores it. -/
theorem unescape_escChars (l : List Char) : unescapeChars (escChars l) = l := by
  induction l with
  | nil => simp [escChars, unescapeChars]
  | cons c l ih =>
    show unescapeChars ((escapeChar c).data ++ escChars l) = c :: l
    by_cases h1 : c = '&'
    · subst h1
      show unescapeChars (['&', 'a', 'm', 'p', ';'] ++ escChars l) = '&' :: l
      simp [unescapeChars, ih]
    · by_cases h2 : c = '<'
      · subst h2
        show unescapeChars (['&', 'l', 't', ';'] ++ escChars l) = '<' :: l
        simp [unescapeChars, ih]
      · by_cases h3 : c = '>'
        · subst h3
          show unescapeChars (['&', 'g', 't', ';'] ++ escChars l) = '>' :: l
          simp [unescapeChars, ih]
        · by_cases h4 : c = '\u00A0'
          · subst h4
            show unescapeChars (['&', 'n', 'b', 's', 'p', ';'] ++ escChars l) = '\u00A0' :: l
            simp [unescapeChars, ih]
          · have he : escapeChar c = String.singleton c := by
              simp [escapeChar, h1, h2, h3, h4]
            rw [he]
            show unescapeChars (c :: escChars l) = c :: l
            rw [unescapeChars_cons_ne c _ h1, ih]

/-- Escaped output of a single character never contains a tag delimiter. -/
theorem escapeChar_no_delims (c : Char) :
    '<' ∉ (escapeChar c).data ∧ '>' ∉ (escapeChar c).data := by
  unfold escapeChar
  split_ifs with h1 h2 h3 h4
  · decide
  · decide
  · decide
  · decide
  · constructor
    · intro hm
      have hc : '<' = c := by
        simpa [String.singleton] using hm
      exact h2 hc.symm
    · intro hm
      have hc : '>' = c := by
        simpa [String.singleton] using hm
      exact h3 hc.symm

/-- Escaped output of a whole list never contains a tag delimiter. -/
theorem escChars_no_delims (l : List Char) :
    '<' ∉ escChars l ∧ '>' ∉ escChars l := by
  induction l with
  | nil => simp [escChars]
  | cons c l ih =>
    have hc := escapeChar_no_delims c
    constructor
    · intro hm
      rcases List.mem_append.mp hm with hm | hm
      · exact hc.1 hm
      · exact ih.1 hm
    · intro hm
      rcases List.mem_append.mp hm with hm | hm
      · exact hc.2 hm
      · exact ih.2 hm

/-! ## C2: escaping in the query clients -/

/-- C2 counterexample: the single-shot client interpolates the source
filename into its innerHTML template verbatim, so markup in a
backend-supplied filename survives unescaped in the rendered fragment
(and the escaped form is absent), refuting the claim that every rendered
backend string is escaped. -/
theorem createSourceElement_injects_markup :
    jsIncludes (createSourceElement ⟨"pdf", "<script>", none⟩) "<script>" = true
    ∧ jsIncludes (createSourceElement ⟨"pdf", "<script>", none⟩) "&lt;script&gt;" = false
    ∧ escapeHtml "<script>" = "&lt;script&gt;" := by
  decide

/-- C2 amended: the escape and unescape functions are a round-trip
identity, and escaped text contains no tag delimiters, so it can never be
parsed as markup; the unescaped interpolation refuted by the
counterexample is the part the amendment drops. -/
theorem escapeHtml_roundtrip :
    (∀ s : String, unescapeHtml (escapeHtml s) = s)
    ∧ (∀ s : String, '<' ∉ (escapeHtml s).data ∧ '>' ∉ (escapeHtml s).data) := by
  constructor
  · intro s
    show unescapeHtml ⟨escChars s.data⟩ = s
    show (⟨unescapeChars (escChars s.data)⟩ : String) = s
    rw [unescape_escChars]
  · intro s
    exact escChars_no_delims s.data


/-- C2 witness: the round trip and the delimiter-freeness at a concrete
string containing every escaped character. -/
theorem escapeHtml_roundtrip_witness :
    unescapeHtml (escapeHtml "a<b>&c") = "a<b>&c"
    ∧ '<' ∉ (escapeHtml "a<b>&c").data :=
  ⟨escapeHtml_roundtrip.1 "a<b>&c", (escapeHtml_roundtrip.2 "a<b>&c").1⟩

/-! ## C5: empty-question guard -/

/-- C5 counterexample: in the chat variant an all-whitespace input trims
to empty and sendMessage returns with no request, no pending transition
and, contrary to the claim, no user-visible notice at all (only a
console.log). -/
theorem sendMessage_empty_is_silent :
    jsTrim "   " = ""
    ∧ sendMessage "   "
        = { request := none, alerts := [], enteredPending := false } := by
  decide

/-- C5 amended: an input that trims to empty issues no network call and
stays in Idle in both variants; the single-shot variant raises a blocking
alert while the chat variant ignores the submission silently. -/
theorem empty_question_short_circuits (q : String) (h : jsTrim q = "") :
    submitQuery q
      = { request := none, alerts := ["Please enter a question"], enteredPending := false }
    ∧ sendMessage q
      = { request := none, alerts := [], enteredPending := false } := by
  constructor
  · simp [submitQuery, h]
  · simp [sendMessage, h]

/-- C5 witness: the amended theorem applied to a whitespace-only input. -/
theorem empty_question_short_circuits_witness :
    jsTrim " " = ""
    ∧ (submitQuery " ").request = none
    ∧ (sendMessage " ").request = none :=
  ⟨by decide,
   by rw [(empty_question_short_circuits " " (by decide)).1],
   by rw [(empty_question_short_circuits " " (by decide)).2]⟩

/-! ## C3: admin page-load guard -/

/-- C3 counterexample: with no stored token the page-load trace still
contains the document-list request (after the queued navigation), because
assigning window.location.href does not halt the script; so an admin API
request is issued while the stored token is absent, refuting the claimed
equivalence. -/
theorem adminPageLoad_requests_without_token :
    (adminPageLoad none).any isFetchDocuments = true
    ∧ adminPageLoad none
        = [AdminEvent.navigate "/login", AdminEvent.fetchDocuments "Bearer null"] := by
  decide

/-- C3 amended: on load the client navigates to the login path exactly
when the stored token is absent, and in program order that navigation
comes first; but in every case exactly one document-list request is still
issued, as the last event of the load trace, carrying the bearer header
built from the stored token (Bearer null when absent). -/
theorem adminPageLoad_guard (stored : Option String) :
    (adminPageLoad stored).countP (fun e => isFetchDocuments e) = 1
    ∧ (AdminEvent.navigate "/login" ∈ adminPageLoad stored ↔ stored = none)
    ∧ (adminPageLoad stored).getLast?
        = some (AdminEvent.fetchDocuments (bearerHeader stored)) := by
  cases stored with
  | none => simp [adminPageLoad, isFetchDocuments, bearerHeader]
  | some t => simp [adminPageLoad, isFetchDocuments, bearerHeader]

/-- C3 witness for the amended statement: the guard facts evaluated with
a stored token present. -/
theorem adminPageLoad_guard_witness :
    (adminPageLoad (some "tok")).countP (fun e => isFetchDocuments e) = 1
    ∧ (adminPageLoad (some "tok")).getLast?
        = some (AdminEvent.fetchDocuments (bearerHeader (some "tok"))) :=
  ⟨(adminPageLoad_guard (some "tok")).1, (adminPageLoad_guard (some "tok")).2.2⟩

/-! ## C8: badge mapping -/

/-- C8: the badge mapping sends .pdf to the pdf badge, .docx and .doc to
the word badge, .xlsx and .xls to the excel badge, and every other
extension string to the pdf badge as an explicit fallback. -/
theorem getBadgeClass_mapping :
    getBadgeClass ".pdf" = "badge-pdf"
    ∧ getBadgeClass ".docx" = "badge-word"
    ∧ getBadgeClass ".doc" = "badge-word"
    ∧ getBadgeClass ".xlsx" = "badge-excel"
    ∧ getBadgeClass ".xls" = "badge-excel"
    ∧ ∀ t : String, t ≠ ".pdf" → t ≠ ".docx" → t ≠ ".doc" → t ≠ ".xlsx" → t ≠ ".xls" →
        getBadgeClass t = "badge-pdf" := by
  refine ⟨by decide, by decide, by decide, by decide, by decide, ?_⟩
  intro t h1 h2 h3 h4 h5
  simp [getBadgeClass, h1, h2, h3, h4, h5]

/-- C8 witness: the fallback branch at a concrete unrecognized extension. -/
theorem getBadgeClass_mapping_witness :
    getBadgeClass ".txt" = "badge-pdf" :=
  getBadgeClass_mapping.2.2.2.2.2 ".txt" (by decide) (by decide) (by decide)
    (by decide) (by decide)

/-! ## C10: source-icon fallback -/

/-- C10 counterexample: at the type string toString the object-literal
lookup finds the truthy member inherited from Object.prototype, so the
or-else fallback is skipped and the source returns that inherited
member, not the word icon, although toString differs from pdf and from
excel; the claimed universal word-icon fallback is false of the program. -/
theorem getSourceIcon_prototype_leak :
    getSourceIcon "toString" = JsValue.protoMember "toString"
    ∧ getSourceIcon "toString" ≠ JsValue.str "📄"
    ∧ jsTruthy (iconsLookup "toString") = true := by
  decide

/-- C10 amended: the two query clients share one icon mapping; the word
type maps to the word icon, and every type other than pdf, excel and the
property names inherited from Object.prototype also maps to the word
icon, so word sources and such unknown types render identically; for an
inherited property name, however, the lookup returns the truthy
inherited member instead of any icon. -/
theorem getSourceIcon_fallback_amended :
    (∀ t : String, chatGetSourceIcon t = getSourceIcon t)
    ∧ getSourceIcon "word" = JsValue.str "📄"
    ∧ (∀ t : String, t ≠ "pdf" → t ≠ "excel" → t ∉ objectProtoKeys →
        getSourceIcon t = JsValue.str "📄")
    ∧ (∀ t : String, t ∈ objectProtoKeys →
        getSourceIcon t = JsValue.protoMember t) := by
  refine ⟨fun t => rfl, by decide, ?_, ?_⟩
  · intro t h1 h2 h3
    by_cases hw : t = "word"
    · subst hw
      decide
    · simp [getSourceIcon, iconsLookup, jsTruthy, h1, h2, h3, hw]
  · intro t h3
    fin_cases h3 <;> decide

/-- C10 witness: the amended theorem evaluated at a plain unknown type,
which gets the word icon in both clients, and at an inherited property
name, which leaks the prototype member. -/
theorem getSourceIcon_fallback_amended_witness :
    getSourceIcon "zip" = JsValue.str "📄"
    ∧ chatGetSourceIcon "zip" = getSourceIcon "zip"
    ∧ getSourceIcon "valueOf" = JsValue.protoMember "valueOf" :=
  ⟨getSourceIcon_fallback_amended.2.2.1 "zip" (by decide) (by decide) (by decide),
   getSourceIcon_fallback_amended.1 "zip",
   getSourceIcon_fallback_amended.2.2.2 "valueOf" (by decide)⟩


/-! ## C1: document-list error handling -/

/-- C1 code behavior at the failing input: for every non-ok listing
response — including HTTP 401 — the thrown error message is the constant
loadFailureMessage, which does not contain the substring 401, so the
catch branch renders the inline failure markup but never clears the token
and never navigates.  The token-clearing redirect branch of the source is
dead for HTTP error statuses, contradicting the spec. -/
theorem loadDocuments_error_keeps_token (st : AdminUiState) (status : ℕ)
    (body : List Document) (h : responseOk status = false) :
    (loadDocuments st (FetchOutcome.response status body)).token = st.token
    ∧ (loadDocuments st (FetchOutcome.response status body)).location = st.location
    ∧ (loadDocuments st (FetchOutcome.response status body)).tableHtml = failedLoadHtml := by
  have key : jsIncludes loadFailureMessage "401" = false := by decide
  simp [loadDocuments, h, loadDocumentsCatch, key]

/-- C1 witness: the response status 401 is not ok, and the 401 listing
failure leaves the stored token in place and triggers no navigation. -/
theorem loadDocuments_error_keeps_token_witness :
    responseOk 401 = false
    ∧ (loadDocuments ⟨some "tok", none, ""⟩ (FetchOutcome.response 401 [])).token = some "tok"
    ∧ (loadDocuments ⟨some "tok", none, ""⟩ (FetchOutcome.response 401 [])).location = none :=
  ⟨by decide,
   (loadDocuments_error_keeps_token ⟨some "tok", none, ""⟩ 401 [] (by decide)).1,
   (loadDocuments_error_keeps_token ⟨some "tok", none, ""⟩ 401 [] (by decide)).2.1⟩

/-! ## C7: file-size formatting values -/

/-- C7: the formatter returns the four values the spec lists, using
base-1024 steps with rounding to two decimals. -/
theorem formatFileSize_spec_values :
    formatFileSize 0 = "0 Bytes"
    ∧ formatFileSize 1024 = "1 KB"
    ∧ formatFileSize 1536 = "1.5 KB"
    ∧ formatFileSize 1048576 = "1 MB" := by
  decide

/-! ## C9: formatter only well-formed below 1 TB -/

/-- C9: for inputs of one tebibyte and beyond the unit index passes the
end of the four-element unit array and the rendered string ends in
undefined, and for negative inputs the NaN produced by the logarithm
propagates to the string NaN undefined; the formatter is only well-formed
on sizes in the range from zero to 1024 to the fourth power. -/
theorem formatFileSize_outside_range (bytes : ℤ) :
    ((1024 : ℤ) ^ 4 ≤ bytes → "undefined".data <:+ (formatFileSize bytes).data)
    ∧ (bytes < 0 → formatFileSize bytes = "NaN undefined") := by
  constructor
  · intro hb
    have hpos : (0 : ℤ) < bytes := lt_of_lt_of_le (by norm_num) hb
    have hne : bytes ≠ 0 := hpos.ne'
    have hnlt : ¬ bytes < 0 := not_lt.mpr hpos.le
    have hn : (1024 : ℕ) ^ 4 ≤ bytes.toNat := by
      have := Int.toNat_le_toNat hb
      simpa using this
    have hn0 : bytes.toNat ≠ 0 := by
      intro h0
      rw [h0] at hn
      norm_num at hn
    have hlog : 4 ≤ log1024 bytes.toNat := by
      rw [log1024_eq_natLog]
      exact (Nat.pow_le_iff_le_log (by norm_num) hn0).mp hn
    have hnone : sizesArray.get? (log1024 bytes.toNat) = none := by
      apply List.get?_eq_none.mpr
      simpa [sizesArray] using hlog
    rw [formatFileSize]
    simp only [hne, hnlt, if_false]
    rw [hnone]
    simp only [Option.getD_none]
    rw [String.data_append]
    exact List.suffix_append _ _
  · intro hb
    have hne : bytes ≠ 0 := hb.ne
    rw [formatFileSize]
    simp [hne, hb]

/-- C9 witness: at exactly one tebibyte the rendered string ends in
undefined, and a negative size renders as NaN undefined. -/
theorem formatFileSize_outside_range_witness :
    ((1024 : ℤ) ^ 4 ≤ (1024 : ℤ) ^ 4
      ∧ "undefined".data <:+ (formatFileSize ((1024 : ℤ) ^ 4)).data)
    ∧ ((-7 : ℤ) < 0 ∧ formatFileSize (-7) = "NaN undefined") :=
  ⟨⟨le_refl _, (formatFileSize_outside_range ((1024 : ℤ) ^ 4)).1 (le_refl _)⟩,
   ⟨by decide, (formatFileSize_outside_range (-7)).2 (by decide)⟩⟩


/-! ## C4: sequential upload loop -/

/-- One loop iteration issues exactly the request for its own file and
never refreshes the listing. -/
theorem uploadOne_events (f : String × Bool) :
    (uploadOne f).filterMap requestName = [f.1]
    ∧ (uploadOne f).countP (fun e => isRefresh e) = 0 := by
  cases hs : f.2 <;> simp [uploadOne, hs, requestName, isRefresh]

/-- Checking one loop iteration: it opens with its request, settles it,
and hands the no-request-outstanding state to the rest of the trace. -/
theorem atMostOneInFlight_uploadOne (b : Bool) (f : String × Bool)
    (rest : List UploadEvent) :
    atMostOneInFlight b (uploadOne f ++ rest)
      = (!b && atMostOneInFlight false rest) := by
  cases hs : f.2 <;> simp [uploadOne, hs, atMostOneInFlight]

/-- Requests of the whole loop body, in order. -/
theorem flatMap_uploadOne_requests (files : List (String × Bool)) :
    (files.flatMap uploadOne).filterMap requestName = files.map Prod.fst := by
  induction files with
  | nil => simp
  | cons f fs ih =>
    simp [List.filterMap_append, (uploadOne_events f).1, ih]

/-- The loop body itself never refreshes the listing. -/
theorem flatMap_uploadOne_no_refresh (files : List (String × Bool)) :
    (files.flatMap uploadOne).countP (fun e => isRefresh e) = 0 := by
  induction files with
  | nil => simp
  | cons f fs ih =>
    simp [List.countP_append, (uploadOne_events f).2, ih]

/-- The loop body keeps at most one request in flight and ends settled. -/
theorem flatMap_uploadOne_inflight (files : List (String × Bool))
    (rest : List UploadEvent) :
    atMostOneInFlight false (files.flatMap uploadOne ++ rest)
      = atMostOneInFlight false rest := by
  induction files with
  | nil => simp
  | cons f fs ih =>
    rw [List.flatMap_cons, List.append_assoc, atMostOneInFlight_uploadOne, ih]
    simp

/-- C4: uploading any list of files issues exactly one request per file,
in order, regardless of per-file success or failure; the trace never has
two requests in flight at once (each request settles before the next
starts); and the listing refresh happens exactly once, as the last event,
after the final settle. -/
theorem uploadFiles_sequential (files : List (String × Bool)) :
    (uploadFiles files).filterMap requestName = files.map Prod.fst
    ∧ (uploadFiles files).countP (fun e => isRefresh e) = 1
    ∧ (uploadFiles files).getLast? = some UploadEvent.refresh
    ∧ atMostOneInFlight false (uploadFiles files) = true := by
  refine ⟨?_, ?_, ?_, ?_⟩
  · rw [uploadFiles, List.filterMap_append, flatMap_uploadOne_requests]
    simp [requestName]
  · rw [uploadFiles, List.countP_append, flatMap_uploadOne_no_refresh]
    simp [isRefresh]
  · rw [uploadFiles]
    exact List.getLast?_concat _
  · rw [uploadFiles, flatMap_uploadOne_inflight]
    simp [atMostOneInFlight]

/-! ## C6: delete confirmation state machine -/

/-- Unfolding one step of the action runner. -/
theorem runDelete_cons (st : DeleteUiState) (a : DeleteAction)
    (as : List DeleteAction) :
    runDelete st (a :: as)
      = ((runDelete (deleteStep st a).1 as).1,
         (deleteStep st a).2 ++ (runDelete (deleteStep st a).1 as).2) := by
  simp [runDelete]

/-- A step only emits a DELETE when the action is the explicit confirm
and the recorded target is exactly the deleted filename. -/
theorem deleteStep_request_source (st : DeleteUiState) (a : DeleteAction)
    (f : String) :
    DeleteEvent.deleteRequest f ∈ (deleteStep st a).2 →
      (∃ b, a = DeleteAction.confirm b) ∧ st.fileToDelete = some f := by
  cases a with
  | showModal g => simp [deleteStep]
  | cancel => simp [deleteStep]
  | confirm s =>
    cases hf : st.fileToDelete with
    | none => simp [deleteStep, hf]
    | some g =>
      cases s with
      | true =>
        intro h
        simp [deleteStep, hf] at h
        subst h
        exact ⟨⟨true, rfl⟩, rfl⟩
      | false =>
        intro h
        simp [deleteStep, hf] at h
        subst h
        exact ⟨⟨false, rfl⟩, rfl⟩

/-- The recorded target can only be set by the matching showModal step. -/
theorem deleteStep_state_source (st : DeleteUiState) (a : DeleteAction)
    (f : String) :
    (deleteStep st a).1.fileToDelete = some f →
      a = DeleteAction.showModal f ∨ st.fileToDelete = some f := by
  cases a with
  | showModal g =>
    intro h
    simp [deleteStep] at h
    left
    rw [h]
  | cancel =>
    intro h
    simp [deleteStep] at h
  | confirm s =>
    cases hf : st.fileToDelete with
    | none =>
      intro h
      rw [deleteStep] at h
      simp [hf] at h
    | some g =>
      cases s with
      | true =>
        intro h
        simp [deleteStep, hf] at h
      | false =>
        intro h
        right
        simpa [deleteStep, hf] using h

/-- Any DELETE in a run traces back to a showModal for that filename or
to a target already recorded in the starting state. -/
theorem runDelete_request_origin (as : List DeleteAction) :
    ∀ (st : DeleteUiState) (f : String),
      DeleteEvent.deleteRequest f ∈ (runDelete st as).2 →
      DeleteAction.showModal f ∈ as ∨ st.fileToDelete = some f := by
  induction as with
  | nil =>
    intro st f h
    simp [runDelete] at h
  | cons a as ih =>
    intro st f h
    rw [runDelete_cons] at h
    rcases List.mem_append.mp h with h | h
    · exact Or.inr (deleteStep_request_source st a f h).2
    · rcases ih (deleteStep st a).1 f h with h2 | h2
      · exact Or.inl (List.mem_cons_of_mem _ h2)
      · rcases deleteStep_state_source st a f h2 with h3 | h3
        · rw [h3]
          exact Or.inl (List.mem_cons_self _ _)
        · exact Or.inr h3

/-- Any DELETE in a run requires some explicit confirm among the actions. -/
theorem runDelete_request_confirm (as : List DeleteAction) :
    ∀ (st : DeleteUiState) (f : String),
      DeleteEvent.deleteRequest f ∈ (runDelete st as).2 →
      ∃ b, DeleteAction.confirm b ∈ as := by
  induction as with
  | nil =>
    intro st f h
    simp [runDelete] at h
  | cons a as ih =>
    intro st f h
    rw [runDelete_cons] at h
    rcases List.mem_append.mp h with h | h
    · obtain ⟨⟨b, hb⟩, _⟩ := deleteStep_request_source st a f h
      exact ⟨b, by rw [hb]; exact List.mem_cons_self _ _⟩
    · obtain ⟨b, hb⟩ := ih (deleteStep st a).1 f h
      exact ⟨b, List.mem_cons_of_mem _ hb⟩

/-- C6: starting from the initial state, no run of user actions can emit
a DELETE for a filename unless a showModal for that very filename occurred
and an explicit confirm occurred; and a failing confirmed delete emits
the DELETE plus an error banner only — no listing refresh — and leaves
the state unchanged. -/
theorem delete_requires_modal_and_confirm :
    (∀ (as : List DeleteAction) (f : String),
        DeleteEvent.deleteRequest f ∈ (runDelete initialDeleteState as).2 →
          DeleteAction.showModal f ∈ as ∧ ∃ b, DeleteAction.confirm b ∈ as)
    ∧ (∀ (st : DeleteUiState) (f : String), st.fileToDelete = some f →
        (deleteStep st (DeleteAction.confirm false)).2
          = [DeleteEvent.deleteRequest f,
             DeleteEvent.banner "Failed to delete document" "error"]
        ∧ DeleteEvent.refreshList ∉ (deleteStep st (DeleteAction.confirm false)).2
        ∧ (deleteStep st (DeleteAction.confirm false)).1 = st) := by
  constructor
  · intro as f h
    have h2 := runDelete_request_confirm as initialDeleteState f h
    rcases runDelete_request_origin as initialDeleteState f h with h1 | h1
    · exact ⟨h1, h2⟩
    · simp [initialDeleteState] at h1
  · intro st f hf
    refine ⟨?_, ?_, ?_⟩ <;> simp [deleteStep, hf]

/-- C6 witness: a modal-then-confirm run emits the DELETE for that file,
and a failing confirm at a recorded target emits request plus error
banner only. -/
theorem delete_requires_modal_and_confirm_witness :
    (DeleteEvent.deleteRequest "a.pdf"
        ∈ (runDelete initialDeleteState
            [DeleteAction.showModal "a.pdf", DeleteAction.confirm true]).2
      ∧ DeleteAction.showModal "a.pdf"
        ∈ [DeleteAction.showModal "a.pdf", DeleteAction.confirm true])
    ∧ ((⟨some "b.doc", true⟩ : DeleteUiState).fileToDelete = some "b.doc"
      ∧ (deleteStep ⟨some "b.doc", true⟩ (DeleteAction.confirm false)).2
          = [DeleteEvent.deleteRequest "b.doc",
             DeleteEvent.banner "Failed to delete document" "error"]) :=
  ⟨⟨by decide,
    (delete_requires_modal_and_confirm.1
      [DeleteAction.showModal "a.pdf", DeleteAction.confirm true] "a.pdf"
      (by decide)).1⟩,
   ⟨rfl,
    (delete_requires_modal_and_confirm.2 ⟨some "b.doc", true⟩ "b.doc" rfl).1⟩⟩

end CirecRag
